import Mathlib

/-!
Verification of the bpp-core parameter/ownership fragment.

Source files embedded:
* `src/Bpp/Utils/Memory.h` — `DefaultPtrPolicy`, `ConditionalOwnershipPolicy`,
  `CopyUniquePtr` (copy constructor, copy assignment, destruction).
* `src/Bpp/Numeric/Parameter.h` — the `Parameter` data model and the declared
  interface (`setValue`, `setConstraint`, `addParameterListener`,
  `removeParameterListener`, `hasParameterListener`, notification).
* `src/Bpp/Numeric/Prob/ExponentialDiscreteDistribution.cpp` —
  `fireParameterChanged`.

Modelling choices:
* Raw C++ pointers are `Option Nat` (`none` = `nullptr`, `some a` = address `a`).
* Dynamically allocated objects live in an explicit `Heap α`: a list of cells,
  `none` marking a freed cell.  Allocation appends a fresh cell.  The heap also
  carries `cloneCalls`, a counter bumped exactly when the virtual
  `Clonable::clone()` of a referent is invoked, so that "clone is (not)
  called" is directly observable.
* `double` is an opaque type parameter `V`: none of the embedded code computes
  with the value, it only stores it and hands it to a constraint predicate.
* The external collaborators are interfaces: a constraint is a heap object
  `c : C` together with a caller-supplied `validate : C → V → Bool`; a listener
  is a heap object `l : L` with `getId : L → String` and a value-changed
  handler `handle : L → ParameterEvent V → L`.
* Method bodies that live in `Parameter.cpp` (not part of the embedded
  sources) are modelled from the specification text and marked
  `Modelled from the spec:` in their doc comments.
-/

namespace BppCore

/-- A store of dynamically allocated objects of type `α`.
`cells[a] = some v`: address `a` holds live object `v`;
`cells[a] = none` (or `a` out of range): address `a` is freed / not allocated.
`cloneCalls` counts invocations of the referent virtual `clone()`. -/
structure Heap (α : Type) where
  cells : List (Option α)
  cloneCalls : Nat
  deriving Repr, DecidableEq

namespace Heap

/-- Dereference address `a` (out-of-range and freed cells read as `none`). -/
def read (h : Heap α) (a : Nat) : Option α :=
  (h.cells[a]?).join

/-- Allocate a fresh cell holding `v`; returns the new heap and the address. -/
def alloc (h : Heap α) (v : α) : Heap α × Nat :=
  ({ h with cells := h.cells ++ [some v] }, h.cells.length)

/-- Free the cell at address `a` (models `delete`). -/
def free (h : Heap α) (a : Nat) : Heap α :=
  { h with cells := h.cells.set a none }

/-- Overwrite the live object at address `a` (mutation of the referent). -/
def write (h : Heap α) (a : Nat) (v : α) : Heap α :=
  { h with cells := h.cells.set a (some v) }

/-- Record one invocation of a referent virtual `clone()`. -/
def tick (h : Heap α) : Heap α :=
  { h with cloneCalls := h.cloneCalls + 1 }

end Heap

/-! ## `DefaultPtrPolicy` (Memory.h)

```cpp
template<typename T> struct DefaultPtrPolicy : public std::default_delete<T> {
  T* clone(T* ptr) const {
    if (ptr != nullptr) return ptr->clone(); else return nullptr;
  }
};
```
`ptr->clone()` is the virtual copy of `Clonable`: it produces a new,
independent object with equivalent observable state — modelled as allocating a
fresh cell with the same stored value, bumping `cloneCalls`.
The deleter part is `std::default_delete`: `delete ptr`, a no-op on `nullptr`.
-/

namespace DefaultPtrPolicy

/-- Embeds `DefaultPtrPolicy<T>::clone` from Memory.h. -/
def clone (h : Heap α) (ptr : Option Nat) : Heap α × Option Nat :=
  match ptr with
  | some a =>
    match h.read a with
    | some v =>
      let (h1, a1) := (h.tick).alloc v
      (h1, some a1)
    | none => (h.tick, none)  -- clone() on a dangling referent: undefined in C++
  | none => (h, none)

/-- Embeds `std::default_delete<T>::operator()` (the base deleter of
`DefaultPtrPolicy`): `delete ptr`, no-op on null. -/
def deleteOp (h : Heap α) (ptr : Option Nat) : Heap α :=
  match ptr with
  | some a => h.free a
  | none => h

end DefaultPtrPolicy

/-! ## `ConditionalOwnershipPolicy` (Memory.h)

```cpp
template<typename T> struct ConditionalOwnershipPolicy : private DefaultPtrPolicy<T> {
  bool ownsPointer;
  constexpr ConditionalOwnershipPolicy(bool ownsPointer_ = true) noexcept ...
  T* clone(T* ptr) const {
    if (ownsPointer) return DefaultPtrPolicy<T>::clone(ptr);
    else return ptr; // Just share the pointer value
  }
  void operator()(T* ptr) const {
    if (ownsPointer) DefaultPtrPolicy<T>::operator()(ptr);
  }
};
```
-/

structure ConditionalOwnershipPolicy where
  ownsPointer : Bool
  deriving Repr, DecidableEq

namespace ConditionalOwnershipPolicy

/-- Embeds `ConditionalOwnershipPolicy<T>::clone` from Memory.h. -/
def clone (pol : ConditionalOwnershipPolicy) (h : Heap α) (ptr : Option Nat) :
    Heap α × Option Nat :=
  if pol.ownsPointer then DefaultPtrPolicy.clone h ptr
  else (h, ptr)

/-- Embeds `ConditionalOwnershipPolicy<T>::operator()` (deletion) from Memory.h. -/
def destroy (pol : ConditionalOwnershipPolicy) (h : Heap α) (ptr : Option Nat) :
    Heap α :=
  if pol.ownsPointer then DefaultPtrPolicy.deleteOp h ptr
  else h

end ConditionalOwnershipPolicy

/-! ## `CopyUniquePtr` (Memory.h)

Specialised to `Policy = ConditionalOwnershipPolicy`, the instantiation used
throughout `Parameter` (`DefaultPtrPolicy` behaviour is the
`ownsPointer = true` case, to which `ConditionalOwnershipPolicy` delegates).
The type parameter `α` records the referent type of the heap it points into.
-/

structure CopyUniquePtr (α : Type) where
  ptr : Option Nat
  policy : ConditionalOwnershipPolicy
  deriving Repr, DecidableEq

namespace CopyUniquePtr

/-- Copy constructor from Memory.h:
```cpp
CopyUniquePtr(const CopyUniquePtr& other)
  : UP(other.get_deleter().clone(other.get()), other.get_deleter()) {}
```
Returns the updated heap and the new `CopyUniquePtr`. -/
def copy (h : Heap α) (other : CopyUniquePtr α) : Heap α × CopyUniquePtr α :=
  let r := other.policy.clone h other.ptr
  (r.1, { ptr := r.2, policy := other.policy })

/-- Copy assignment from Memory.h:
```cpp
CopyUniquePtr& operator=(const CopyUniquePtr& other) {
  UP::operator=(UP(other.get_deleter().clone(other.get()), other.get_deleter()));
  return *this;
}
```
The temporary `UP` is fully constructed first (the policy `clone` of the
source referent is evaluated), then `unique_ptr` move assignment installs the
new pointer, destroys the target old referent with the old deleter, and moves
the temporary deleter in. -/
def copyAssign (h : Heap α) (tgt other : CopyUniquePtr α) :
    Heap α × CopyUniquePtr α :=
  let r := other.policy.clone h other.ptr
  let h2 := tgt.policy.destroy r.1 tgt.ptr
  (h2, { ptr := r.2, policy := other.policy })

/-- Destructor `~CopyUniquePtr` (defaulted): the inherited `unique_ptr` destructor calls
the stored deleter — here `ConditionalOwnershipPolicy::operator()` — on the
held pointer. -/
def destruct (h : Heap α) (cup : CopyUniquePtr α) : Heap α :=
  cup.policy.destroy h cup.ptr

end CopyUniquePtr

/-! ## `Parameter` (Parameter.h)

```cpp
class Parameter : public virtual Clonable {
protected:
  std::string name_;
  double value_{0.0};
  double precision_{0.0};
  CopyUniquePtr<Constraint, ConditionalOwnershipPolicy<Constraint>> constraint_{nullptr};
  std::vector<CopyUniquePtr<ParameterListener, ConditionalOwnershipPolicy<ParameterListener>>> listeners_;
  ...
};
```
`V` stands for `double` (opaque: the code only stores it and passes it to the
constraint). `C` and `L` are the referent types of the constraint heap and the
listener heap. -/
structure Parameter (V C L : Type) where
  name_ : String
  value_ : V
  precision_ : V
  constraint_ : CopyUniquePtr C
  listeners_ : List (CopyUniquePtr L)
  deriving Repr, DecidableEq

/-- Embeds `ParameterEvent` (Parameter.h): holds a `Parameter*` to the parameter that
changed; constructed immediately before notification.  In this value-level
embedding the event carries the notifying parameter state as seen through
that pointer at notification time. -/
structure ParameterEvent (V C L : Type) where
  parameter_ : Parameter V C L
  deriving Repr, DecidableEq

/-- Embeds `ParameterEvent::getParameter`. -/
def ParameterEvent.getParameter (e : ParameterEvent V C L) : Parameter V C L :=
  e.parameter_

/-- Embeds `ConstraintException` (the ConstraintViolation domain error): carries the
rejected value and an identification of the parameter involved. -/
structure ConstraintViolation (V : Type) where
  badValue : V
  parameterName : String
  deriving Repr, DecidableEq

namespace Parameter

/-- Embeds `Parameter::getValue`. -/
def getValue (p : Parameter V C L) : V := p.value_

/-- Embeds `Parameter::getName`. -/
def getName (p : Parameter V C L) : String := p.name_

/-- Embeds `Parameter::getPrecision`. -/
def getPrecision (p : Parameter V C L) : V := p.precision_

/-- Value-copy of a `Parameter` (the implicit C++ copy constructor, also used
by `clone()`): memberwise copy — `name_`, `value_`, `precision_` copied as
values, `constraint_` via the `CopyUniquePtr` copy constructor, `listeners_`
element-wise in order via the same copy constructor (`std::vector` copy). -/
def copyListeners (h : Heap L) :
    List (CopyUniquePtr L) → Heap L × List (CopyUniquePtr L)
  | [] => (h, [])
  | cup :: rest =>
    let r1 := CopyUniquePtr.copy h cup
    let r2 := copyListeners r1.1 rest
    (r2.1, r1.2 :: r2.2)

/-- Memberwise value-copy of a `Parameter` (implicit copy constructor /
`clone()`); threads the constraint heap and the listener heap. -/
def copy (hc : Heap C) (hl : Heap L) (p : Parameter V C L) :
    Heap C × Heap L × Parameter V C L :=
  let rc := CopyUniquePtr.copy hc p.constraint_
  let rl := copyListeners hl p.listeners_
  (rc.1, rl.1, { p with constraint_ := rc.2, listeners_ := rl.2 })

/-- Embeds `Parameter::fireParameterValueChanged` (declared in Parameter.h; body
modelled from the spec: "notify every attached Listener's value-changed entry
point, in the order the listeners were added", a direct depth-first fan-out).
Returns the updated listener heap and the trace of notification calls, one
entry `(listener pointer, event)` per registered listener, in order. -/
def fireParameterValueChanged (handle : L → ParameterEvent V C L → L)
    (event : ParameterEvent V C L) :
    Heap L → List (CopyUniquePtr L) →
    Heap L × List (Option Nat × ParameterEvent V C L)
  | hl, [] => (hl, [])
  | hl, cup :: rest =>
    let hl1 :=
      match cup.ptr with
      | some a =>
        match hl.read a with
        | some l => hl.write a (handle l event)
        | none => hl
      | none => hl
    let r := fireParameterValueChanged handle event hl1 rest
    (r.1, (cup.ptr, event) :: r.2)

/-- Result of a `Parameter::setValue` call: the parameter state after the
call, the listener heap after notification, the trace of value-changed
notifications, and the ConstraintViolation surfaced to the caller (if any). -/
structure SetValueResult (V C L : Type) where
  param : Parameter V C L
  lheap : Heap L
  trace : List (Option Nat × ParameterEvent V C L)
  err : Option (ConstraintViolation V)
  deriving Repr, DecidableEq

/-- Embeds `Parameter::setValue` (declared in Parameter.h; body in Parameter.cpp,
not among the embedded sources).  Modelled from the spec: "if a Constraint is
attached, ask it to validate v; on rejection, fail with a ConstraintViolation
error and leave the stored value unchanged; on acceptance, store v, construct
a Change Event referencing this Parameter, and notify every attached
Listener's value-changed entry point, in the order the listeners were added."
`validate` is the external Constraint collaborator interface. -/
def setValue (validate : C → V → Bool) (handle : L → ParameterEvent V C L → L)
    (hc : Heap C) (hl : Heap L) (p : Parameter V C L) (v : V) :
    SetValueResult V C L :=
  let accepted :=
    match p.constraint_.ptr.bind hc.read with
    | some c => validate c v
    | none => true
  if accepted then
    let p1 := { p with value_ := v }
    let r := fireParameterValueChanged handle (ParameterEvent.mk p1) hl p.listeners_
    { param := p1, lheap := r.1, trace := r.2, err := none }
  else
    { param := p, lheap := hl, trace := [],
      err := some { badValue := v, parameterName := p.name_ } }

/-- Embeds `Parameter::setConstraint(Constraint* constraint, bool attach = false)`
(default from Parameter.h line 199).  Body modelled from the spec: "replaces
any existing constraint; if attach is true the Parameter takes ownership ...;
if false, the Parameter only references c".  Replacing is `CopyUniquePtr`
(move) assignment: the old referent is destroyed under the old policy. -/
def setConstraint (hc : Heap C) (p : Parameter V C L) (constraint : Option Nat)
    (attach : Bool := false) : Heap C × Parameter V C L :=
  (p.constraint_.policy.destroy hc p.constraint_.ptr,
   { p with constraint_ := { ptr := constraint, policy := { ownsPointer := attach } } })

/-- Embeds `Parameter::addParameterListener(ParameterListener* listener,
bool attachListener = true)` (default from Parameter.h line 208).  Body
modelled from the spec: "appends; attach controls the same own/share
duplication semantics as constraints". -/
def addParameterListener (p : Parameter V C L) (listener : Option Nat)
    (attachListener : Bool := true) : Parameter V C L :=
  { p with listeners_ :=
      p.listeners_ ++ [{ ptr := listener, policy := { ownsPointer := attachListener } }] }

/-- The id of the listener referenced by a stored entry, read through the
listener heap (`ParameterListener::getId`); `none` for a null or dangling
entry. -/
def listenerId (getId : L → String) (hl : Heap L) (cup : CopyUniquePtr L) :
    Option String :=
  (cup.ptr.bind hl.read).map getId

/-- Embeds `Parameter::removeParameterListener(const std::string& listenerId)`
(declared in Parameter.h; body in Parameter.cpp, not among the embedded
sources).  Modelled from the spec: "removes all listeners whose id equals the
given id (ids are not required unique)", leaving the others in order; per the
Parameter.h documentation an owned listener "will be destroyed ... upon
removal", so removed entries are destroyed under their own policy. -/
def removeParameterListener (getId : L → String) (hl : Heap L)
    (p : Parameter V C L) (id : String) : Heap L × Parameter V C L :=
  let isMatch := fun cup => listenerId getId hl cup = some id
  let removed := p.listeners_.filter (fun cup => isMatch cup)
  let kept := p.listeners_.filter (fun cup => ¬ isMatch cup)
  (removed.foldl (fun h cup => CopyUniquePtr.destruct h cup) hl,
   { p with listeners_ := kept })

/-- Embeds `Parameter::hasParameterListener(const std::string& listenerId)` (declared
in Parameter.h; body in Parameter.cpp, not among the embedded sources).
Modelled from the spec: "existence check over the same multimap-like linear
scan". -/
def hasParameterListener (getId : L → String) (hl : Heap L)
    (p : Parameter V C L) (id : String) : Bool :=
  p.listeners_.any (fun cup => listenerId getId hl cup = some id)

end Parameter

/-! ## `ExponentialDiscreteDistribution` (ExponentialDiscreteDistribution.cpp)

```cpp
void ExponentialDiscreteDistribution::fireParameterChanged(const ParameterList& parameters) {
  AbstractDiscreteDistribution::fireParameterChanged(parameters);
  lambda_ = getParameterValue("lambda");
  discretize();
}
```
The discretization algorithm and the `AbstractDiscreteDistribution` plumbing
are external collaborators; the spec reduces them to "re-derives its internal
discretized representation from the current parameter value (pure function of
current parameter values)", modelled by a caller-supplied `discretize : V → D`.
`fireCount` counts recompute invocations. -/
structure ExponentialDiscreteDistribution (V D : Type) where
  lambda_ : V
  discretization : D
  fireCount : Nat
  deriving Repr, DecidableEq

/-- Embeds `ExponentialDiscreteDistribution::fireParameterChanged`, as invoked for a
change of the lambda parameter: reads the current parameter value
(`getParameterValue("lambda")`), caches it in `lambda_`, and recomputes the
discretization from it. -/
def ExponentialDiscreteDistribution.fireParameterChanged (discretize : V → D)
    (dist : ExponentialDiscreteDistribution V D) (event : ParameterEvent V C L) :
    ExponentialDiscreteDistribution V D :=
  let v := event.getParameter.getValue
  { lambda_ := v, discretization := discretize v, fireCount := dist.fireCount + 1 }

/-! ## Concrete fixtures

Closed instances used to evaluate the embedded operations on concrete inputs
(`double` instantiated with `Int`, the constraint collaborator with an `Int`
lower bound, the listener collaborator with a `String` id). -/

namespace Ex

/-- Concrete constraint collaborator: the constraint object is a strict lower
bound (like `IntervalConstraint(1, 0.0, true)` for `R_PLUS_STAR`). -/
def exValidate : Int → Int → Bool := fun c v => c < v

/-- Concrete listener collaborator: the listener object is its own id. -/
def exGetId : String → String := fun s => s

/-- Concrete value-changed handler: ignores the event. -/
def exHandle : String → ParameterEvent Int Int String → String := fun s _ => s

/-- Constraint heap: one live constraint object (bound 0) at address 0. -/
def exCHeap : Heap Int := { cells := [some 0], cloneCalls := 0 }

/-- Listener heap: listener objects "A", "B", "A" at addresses 0, 1, 2. -/
def exLHeap : Heap String := { cells := [some "A", some "B", some "A"], cloneCalls := 0 }

/-- A parameter owning its constraint (address 0), with an owned listener at
address 0, a shared listener at address 1 and an owned listener at address 2. -/
def exParam : Parameter Int Int String :=
  { name_ := "x", value_ := 1, precision_ := 0,
    constraint_ := { ptr := some 0, policy := { ownsPointer := true } },
    listeners_ :=
      [ { ptr := some 0, policy := { ownsPointer := true } },
        { ptr := some 1, policy := { ownsPointer := false } },
        { ptr := some 2, policy := { ownsPointer := true } } ] }

/-- A parameter sharing its constraint (address 0), with no listeners. -/
def exParamShared : Parameter Int Int String :=
  { name_ := "y", value_ := 1, precision_ := 0,
    constraint_ := { ptr := some 0, policy := { ownsPointer := false } },
    listeners_ := [] }

/-- An owning `CopyUniquePtr` to the listener at address 0. -/
def exOwnedCup : CopyUniquePtr String :=
  { ptr := some 0, policy := { ownsPointer := true } }

/-- A sharing `CopyUniquePtr` to the listener at address 1. -/
def exSharedCup : CopyUniquePtr String :=
  { ptr := some 1, policy := { ownsPointer := false } }

/-- Distribution-listener heap: one exponential distribution at address 0. -/
def exDistHeap : Heap (ExponentialDiscreteDistribution Int Int) :=
  { cells := [some { lambda_ := 1, discretization := 2, fireCount := 0 }],
    cloneCalls := 0 }

/-- Concrete discretization collaborator. -/
def exDiscretize : Int → Int := fun v => 2 * v

/-- The lambda parameter with the distribution registered as its single
(shared) listener. -/
def exLambdaParam : Parameter Int Int (ExponentialDiscreteDistribution Int Int) :=
  { name_ := "Exponential.lambda", value_ := 1, precision_ := 0,
    constraint_ := { ptr := some 0, policy := { ownsPointer := true } },
    listeners_ := [ { ptr := some 0, policy := { ownsPointer := false } } ] }

end Ex

/-! ## Heap lemmas -/

namespace Heap

theorem read_some_lt {h : Heap α} {a : Nat} {v : α} (hr : h.read a = some v) :
    a < h.cells.length := by
  by_contra hge
  have : h.cells[a]? = none := List.getElem?_eq_none (Nat.le_of_not_lt hge)
  simp [read, this] at hr

theorem read_of_le {h : Heap α} {a : Nat} (ha : h.cells.length ≤ a) :
    h.read a = none := by
  simp [read, List.getElem?_eq_none ha]

theorem read_alloc_self (h : Heap α) (v : α) :
    ((h.alloc v).1).read (h.alloc v).2 = some v := by
  simp [read, alloc, List.getElem?_concat_length]

theorem read_alloc_ne (h : Heap α) (v : α) {a : Nat} (ha : a ≠ h.cells.length) :
    ((h.alloc v).1).read a = h.read a := by
  rcases Nat.lt_or_ge a h.cells.length with hlt | hge
  · simp [read, alloc, List.getElem?_append_left hlt]
  · have hge1 : h.cells.length + 1 ≤ a := Nat.lt_of_le_of_ne hge (fun e => ha e.symm)
    have h1 : (h.cells ++ [some v])[a]? = none := by
      apply List.getElem?_eq_none
      simpa using hge1
    simp [read, alloc, h1, List.getElem?_eq_none hge]

theorem read_free_self (h : Heap α) (a : Nat) : (h.free a).read a = none := by
  rcases Nat.lt_or_ge a h.cells.length with hlt | hge
  · simp [read, free, List.getElem?_set_self hlt]
  · have : h.cells.set a none = h.cells := List.set_eq_of_length_le hge
    simp [read, free, this, List.getElem?_eq_none hge]

theorem read_free_ne (h : Heap α) {a b : Nat} (hne : b ≠ a) :
    (h.free a).read b = h.read b := by
  simp [read, free, List.getElem?_set_ne (fun e => hne e.symm)]

theorem read_write_self (h : Heap α) {a : Nat} (v : α) (ha : a < h.cells.length) :
    (h.write a v).read a = some v := by
  simp [read, write, List.getElem?_set_self ha]

theorem read_write_ne (h : Heap α) {a b : Nat} (v : α) (hne : b ≠ a) :
    (h.write a v).read b = h.read b := by
  simp [read, write, List.getElem?_set_ne (fun e => hne e.symm)]

theorem read_tick (h : Heap α) (a : Nat) : (h.tick).read a = h.read a := rfl

/-- Heap `h2` is `h1` with zero or more cells allocated on top (nothing below
freed or overwritten). -/
def Extends (h2 h1 : Heap α) : Prop :=
  ∃ ext, h2.cells = h1.cells ++ ext

theorem Extends.rfl (h : Heap α) : Extends h h := ⟨[], by simp⟩

theorem Extends.trans {h3 h2 h1 : Heap α} (h32 : Extends h3 h2)
    (h21 : Extends h2 h1) : Extends h3 h1 := by
  obtain ⟨e1, he1⟩ := h32
  obtain ⟨e2, he2⟩ := h21
  exact ⟨e2 ++ e1, by simp [he1, he2]⟩

theorem Extends.read_eq {h2 h1 : Heap α} (hx : Extends h2 h1) {a : Nat}
    (ha : a < h1.cells.length) : h2.read a = h1.read a := by
  obtain ⟨ext, hext⟩ := hx
  simp [read, hext, List.getElem?_append_left ha]

theorem Extends.read_some {h2 h1 : Heap α} (hx : Extends h2 h1) {a : Nat}
    {v : α} (hr : h1.read a = some v) : h2.read a = some v := by
  rw [hx.read_eq (read_some_lt hr)]; exact hr

theorem Extends.length_le {h2 h1 : Heap α} (hx : Extends h2 h1) :
    h1.cells.length ≤ h2.cells.length := by
  obtain ⟨ext, hext⟩ := hx
  simp [hext]

theorem Extends.read_none {h2 h1 : Heap α} (hx : Extends h2 h1) {a : Nat}
    (hr : h2.read a = none) : h1.read a = none := by
  rcases Nat.lt_or_ge a h1.cells.length with hlt | hge
  · rw [← hx.read_eq hlt]; exact hr
  · exact read_of_le hge

end Heap

/-! ## Policy and `CopyUniquePtr` lemmas -/

namespace DefaultPtrPolicy

theorem clone_of_read {h : Heap α} {a : Nat} {v : α} (hr : h.read a = some v) :
    clone h (some a) =
      ({ cells := h.cells ++ [some v], cloneCalls := h.cloneCalls + 1 },
       some h.cells.length) := by
  simp [clone, hr, Heap.alloc, Heap.tick]

theorem default_clone_extends (h : Heap α) (p : Option Nat) :
    ((clone h p).1).Extends h := by
  match p with
  | none => exact ⟨[], by simp [clone]⟩
  | some a =>
    cases hr : h.read a with
    | some v => rw [clone_of_read hr]; exact ⟨[some v], by simp⟩
    | none =>
      refine ⟨[], ?_⟩
      simp [clone, hr, Heap.tick]

end DefaultPtrPolicy

namespace ConditionalOwnershipPolicy

theorem clone_owned_of_read {pol : ConditionalOwnershipPolicy}
    (hown : pol.ownsPointer = true) {h : Heap α} {a : Nat} {v : α}
    (hr : h.read a = some v) :
    pol.clone h (some a) =
      ({ cells := h.cells ++ [some v], cloneCalls := h.cloneCalls + 1 },
       some h.cells.length) := by
  rw [clone, hown, if_pos rfl, DefaultPtrPolicy.clone_of_read hr]

theorem clone_shared {pol : ConditionalOwnershipPolicy}
    (hsh : pol.ownsPointer = false) (h : Heap α) (p : Option Nat) :
    pol.clone h p = (h, p) := by
  rw [clone, hsh]
  simp

theorem cond_clone_extends (pol : ConditionalOwnershipPolicy) (h : Heap α)
    (p : Option Nat) : ((pol.clone h p).1).Extends h := by
  rw [clone]
  cases pol.ownsPointer with
  | true => simpa using DefaultPtrPolicy.default_clone_extends h p
  | false => simpa using Heap.Extends.rfl h

theorem destroy_shared {pol : ConditionalOwnershipPolicy}
    (hsh : pol.ownsPointer = false) (h : Heap α) (p : Option Nat) :
    pol.destroy h p = h := by
  rw [destroy, hsh]
  simp

theorem destroy_owned {pol : ConditionalOwnershipPolicy}
    (hown : pol.ownsPointer = true) (h : Heap α) (a : Nat) :
    pol.destroy h (some a) = h.free a := by
  rw [destroy, hown]
  simp [DefaultPtrPolicy.deleteOp]

end ConditionalOwnershipPolicy

namespace CopyUniquePtr

theorem copy_extends (h : Heap α) (cup : CopyUniquePtr α) :
    ((copy h cup).1).Extends h :=
  ConditionalOwnershipPolicy.cond_clone_extends cup.policy h cup.ptr

theorem copy_shared {cup : CopyUniquePtr α} (hsh : cup.policy.ownsPointer = false)
    (h : Heap α) : copy h cup = (h, cup) := by
  simp [copy, ConditionalOwnershipPolicy.clone_shared hsh]

theorem copy_owned_of_read {cup : CopyUniquePtr α}
    (hown : cup.policy.ownsPointer = true) {h : Heap α} {a : Nat} {v : α}
    (hp : cup.ptr = some a) (hr : h.read a = some v) :
    copy h cup =
      ({ cells := h.cells ++ [some v], cloneCalls := h.cloneCalls + 1 },
       { ptr := some h.cells.length, policy := cup.policy }) := by
  simp [copy, hp, ConditionalOwnershipPolicy.clone_owned_of_read hown hr]

theorem copy_policy_eq (h : Heap α) (cup : CopyUniquePtr α) :
    ((copy h cup).2).policy = cup.policy := rfl

end CopyUniquePtr

/-! ## Claim C3 -/

/-- Claim C3: for every `CopyUniquePtr` configured with a
`ConditionalOwnershipPolicy`, destruction invokes the policy deletion
operation, which frees the referent if and only if `ownsPointer` is true;
when the flag is false (shared mode) destruction is a no-op and the referent
is not freed.  Other addresses are never touched. -/
theorem destruct_frees_iff_ownsPointer (h : Heap α) (cup : CopyUniquePtr α)
    (a : Nat) (x : α) (hp : cup.ptr = some a) (hr : h.read a = some x) :
    (cup.policy.ownsPointer = false → CopyUniquePtr.destruct h cup = h) ∧
    (cup.policy.ownsPointer = true →
      (CopyUniquePtr.destruct h cup).read a = none ∧
      ∀ b, b ≠ a → (CopyUniquePtr.destruct h cup).read b = h.read b) ∧
    ((CopyUniquePtr.destruct h cup).read a = none ↔
      cup.policy.ownsPointer = true) := by
  unfold CopyUniquePtr.destruct
  cases hown : cup.policy.ownsPointer with
  | false =>
    rw [ConditionalOwnershipPolicy.destroy_shared hown]
    exact ⟨fun _ => rfl,
           fun hc => by simp at hc,
           by simp [hr]⟩
  | true =>
    rw [hp, ConditionalOwnershipPolicy.destroy_owned hown]
    refine ⟨fun hc => by simp at hc, ?_, ?_⟩
    · exact fun _ => ⟨Heap.read_free_self h a, fun b hb => Heap.read_free_ne h hb⟩
    · simp [Heap.read_free_self h a]

/-- Witness for C3 at a concrete owning pointer: destruction frees the
referent at address 0 and leaves address 1 intact. -/
theorem destruct_frees_iff_ownsPointer_witness :
    Ex.exOwnedCup.ptr = some 0 ∧
    Ex.exLHeap.read 0 = some "A" ∧
    (CopyUniquePtr.destruct Ex.exLHeap Ex.exOwnedCup).read 0 = none ∧
    (CopyUniquePtr.destruct Ex.exLHeap Ex.exOwnedCup).read 1 = Ex.exLHeap.read 1 := by
  have h := destruct_frees_iff_ownsPointer Ex.exLHeap Ex.exOwnedCup 0 "A" rfl rfl
  exact ⟨rfl, rfl, (h.2.1 rfl).1, (h.2.1 rfl).2 1 (by decide)⟩

/-! ## Claim C4 -/

/-- Claim C4: for every copy of a `CopyUniquePtr` (copy construction or copy
assignment), the copy's policy object — in particular the `ownsPointer` flag —
equals the source's policy verbatim. -/
theorem copy_policy_verbatim (h : Heap α) (tgt other : CopyUniquePtr α) :
    ((CopyUniquePtr.copy h other).2).policy = other.policy ∧
    ((CopyUniquePtr.copyAssign h tgt other).2).policy = other.policy ∧
    ((CopyUniquePtr.copy h other).2).policy.ownsPointer =
      other.policy.ownsPointer ∧
    ((CopyUniquePtr.copyAssign h tgt other).2).policy.ownsPointer =
      other.policy.ownsPointer :=
  ⟨rfl, rfl, rfl, rfl⟩

/-! ## Claim C5 -/

/-- Claim C5: for every `ConditionalOwnershipPolicy` (owned or shared mode) and
for `DefaultPtrPolicy`, duplicating a null referent yields null, leaves the
heap untouched and does not invoke the referent virtual `clone()`
(the `cloneCalls` counter is unchanged). -/
theorem clone_null_yields_null (pol : ConditionalOwnershipPolicy) (h : Heap α) :
    DefaultPtrPolicy.clone h none = (h, none) ∧
    pol.clone h none = (h, none) ∧
    ((pol.clone h none).1).cloneCalls = h.cloneCalls ∧
    ((DefaultPtrPolicy.clone h none).1).cloneCalls = h.cloneCalls := by
  have h1 : DefaultPtrPolicy.clone (α := α) h none = (h, none) := rfl
  have h2 : pol.clone h none = (h, none) := by
    rw [ConditionalOwnershipPolicy.clone]
    cases pol.ownsPointer <;> simp [h1]
  exact ⟨h1, h2, by rw [h2], by rw [h1]⟩

/-! ## Claim C10 -/

/-- Claim C10: copy assignment evaluates the policy duplicate of the source
referent before releasing the target's old referent, so self-assignment is
safe in both modes: in shared mode the pointer afterwards holds the very same
referent, nothing is freed and nothing is allocated; in owned mode it holds a
fresh, independent clone of its former referent (same stored state, at an
address that was unallocated before), carries the same ownership flag, and
the former referent is freed. -/
theorem copyAssign_self_safe (h : Heap α) (cup : CopyUniquePtr α) (a : Nat)
    (x : α) (hp : cup.ptr = some a) (hr : h.read a = some x) :
    (cup.policy.ownsPointer = false →
      CopyUniquePtr.copyAssign h cup cup = (h, cup)) ∧
    (cup.policy.ownsPointer = true →
      ((CopyUniquePtr.copyAssign h cup cup).2).ptr = some h.cells.length ∧
      h.cells.length ≠ a ∧
      h.read h.cells.length = none ∧
      ((CopyUniquePtr.copyAssign h cup cup).1).read h.cells.length = some x ∧
      ((CopyUniquePtr.copyAssign h cup cup).2).policy = cup.policy ∧
      ((CopyUniquePtr.copyAssign h cup cup).1).read a = none) := by
  constructor
  · intro hsh
    simp [CopyUniquePtr.copyAssign,
      ConditionalOwnershipPolicy.clone_shared hsh,
      ConditionalOwnershipPolicy.destroy_shared hsh]
  · intro hown
    have halt : a < h.cells.length := Heap.read_some_lt hr
    have hne : h.cells.length ≠ a := fun e => absurd (e ▸ halt) (Nat.lt_irrefl _)
    have hasn : CopyUniquePtr.copyAssign h cup cup =
        (({ cells := h.cells ++ [some x], cloneCalls := h.cloneCalls + 1 } :
            Heap α).free a,
         { ptr := some h.cells.length, policy := cup.policy }) := by
      simp [CopyUniquePtr.copyAssign, hp,
        ConditionalOwnershipPolicy.clone_owned_of_read hown hr,
        ConditionalOwnershipPolicy.destroy_owned hown]
    rw [hasn]
    refine ⟨rfl, hne, Heap.read_of_le (Nat.le_refl _), ?_, rfl, ?_⟩
    · rw [Heap.read_free_ne _ hne]
      simp [Heap.read, List.getElem?_concat_length]
    · exact Heap.read_free_self _ a

/-- Witness for C10 at a concrete owning pointer (`p = p` on the listener at
address 0, heap of three cells): the pointer afterwards holds a fresh clone at
address 3 with the old state, and address 0 is freed. -/
theorem copyAssign_self_safe_witness :
    Ex.exOwnedCup.ptr = some 0 ∧
    Ex.exLHeap.read 0 = some "A" ∧
    ((CopyUniquePtr.copyAssign Ex.exLHeap Ex.exOwnedCup Ex.exOwnedCup).2).ptr =
      some 3 ∧
    ((CopyUniquePtr.copyAssign Ex.exLHeap Ex.exOwnedCup Ex.exOwnedCup).1).read 3 =
      some "A" ∧
    ((CopyUniquePtr.copyAssign Ex.exLHeap Ex.exOwnedCup Ex.exOwnedCup).1).read 0 =
      none := by
  have h := copyAssign_self_safe Ex.exLHeap Ex.exOwnedCup 0 "A" rfl rfl
  exact ⟨rfl, rfl, (h.2 rfl).1, (h.2 rfl).2.2.2.1, (h.2 rfl).2.2.2.2.2⟩

/-! ## `Parameter.copy` lemmas -/

namespace Parameter

theorem copyListeners_length (hl : Heap L) (ls : List (CopyUniquePtr L)) :
    ((copyListeners hl ls).2).length = ls.length := by
  induction ls generalizing hl with
  | nil => rfl
  | cons cup rest ih => simp [copyListeners, ih]

theorem copyListeners_extends (hl : Heap L) (ls : List (CopyUniquePtr L)) :
    ((copyListeners hl ls).1).Extends hl := by
  induction ls generalizing hl with
  | nil => exact Heap.Extends.rfl hl
  | cons cup rest ih =>
    simp only [copyListeners]
    exact (ih _).trans (CopyUniquePtr.copy_extends hl cup)

theorem copyListeners_get (hl : Heap L) (ls : List (CopyUniquePtr L))
    (i : Nat) (cup outi : CopyUniquePtr L)
    (hcup : ls[i]? = some cup)
    (houti : ((copyListeners hl ls).2)[i]? = some outi) :
    outi.policy = cup.policy ∧
    (cup.policy.ownsPointer = false → outi = cup) ∧
    (∀ a x, cup.policy.ownsPointer = true → cup.ptr = some a →
      hl.read a = some x →
      ∃ a2, outi.ptr = some a2 ∧ a2 ≠ a ∧ hl.read a2 = none ∧
        ((copyListeners hl ls).1).read a2 = some x ∧
        ((copyListeners hl ls).1).read a = some x) := by
  induction ls generalizing hl i with
  | nil => simp at hcup
  | cons cup0 rest ih =>
    have e1 : (copyListeners hl (cup0 :: rest)).1 =
        (copyListeners (CopyUniquePtr.copy hl cup0).1 rest).1 := by
      simp [copyListeners]
    have e2 : (copyListeners hl (cup0 :: rest)).2 =
        (CopyUniquePtr.copy hl cup0).2 ::
          (copyListeners (CopyUniquePtr.copy hl cup0).1 rest).2 := by
      simp [copyListeners]
    cases i with
    | zero =>
      simp only [List.getElem?_cons_zero, Option.some.injEq] at hcup
      rw [e2] at houti
      simp only [List.getElem?_cons_zero, Option.some.injEq] at houti
      cases hcup
      cases houti
      refine ⟨CopyUniquePtr.copy_policy_eq hl cup, ?_, ?_⟩
      · intro hsh
        rw [CopyUniquePtr.copy_shared hsh]
      · intro a x hown hpa hr
        have halt : a < hl.cells.length := Heap.read_some_lt hr
        have hcopy := CopyUniquePtr.copy_owned_of_read hown hpa hr
        have hx1 : ((CopyUniquePtr.copy hl cup).1).Extends hl := by
          rw [hcopy]; exact ⟨[some x], rfl⟩
        refine ⟨hl.cells.length, ?_, ?_, Heap.read_of_le (Nat.le_refl _), ?_, ?_⟩
        · rw [hcopy]
        · exact fun e => absurd (e ▸ halt) (Nat.lt_irrefl _)
        · rw [e1]
          refine (copyListeners_extends _ rest).read_some ?_
          rw [hcopy]
          simp [Heap.read, List.getElem?_concat_length]
        · rw [e1]
          exact (copyListeners_extends _ rest).read_some (hx1.read_some hr)
    | succ j =>
      simp only [List.getElem?_cons_succ] at hcup
      rw [e2] at houti
      simp only [List.getElem?_cons_succ] at houti
      have hx1 : ((CopyUniquePtr.copy hl cup0).1).Extends hl :=
        CopyUniquePtr.copy_extends hl cup0
      obtain ⟨hpol, hsh, hown⟩ := ih (CopyUniquePtr.copy hl cup0).1 j hcup houti
      refine ⟨hpol, hsh, ?_⟩
      intro a x hfl hpa hr
      obtain ⟨a2, ho1, ho2, ho3, ho4, ho5⟩ :=
        hown a x hfl hpa (hx1.read_some hr)
      exact ⟨a2, ho1, ho2, hx1.read_none ho3,
        by rw [e1]; exact ho4, by rw [e1]; exact ho5⟩

end Parameter

/-! ## Claim C1 -/

/-- Claim C1: value-copying a `Parameter` duplicates an owned constraint (and
each owned listener) through the referent `clone()` — the copy points to a
fresh, independent object with the same state, the original referent stays in
place, and one `clone()` call is made for the constraint — while a shared
constraint (and each shared listener) is aliased: the copied pointer holds
the very same referent (pointer equality) and nothing is allocated, so
mutating the shared object affects both. -/
theorem parameter_copy_ownership (hc : Heap C) (hl : Heap L)
    (p : Parameter V C L) :
    (∀ a c, p.constraint_.policy.ownsPointer = true →
      p.constraint_.ptr = some a → hc.read a = some c →
      ((Parameter.copy hc hl p).2.2).constraint_.ptr = some hc.cells.length ∧
      hc.cells.length ≠ a ∧
      ((Parameter.copy hc hl p).1).read hc.cells.length = some c ∧
      ((Parameter.copy hc hl p).1).read a = some c ∧
      ((Parameter.copy hc hl p).1).cloneCalls = hc.cloneCalls + 1 ∧
      ∀ c2, (((Parameter.copy hc hl p).1).write a c2).read hc.cells.length =
        some c) ∧
    (p.constraint_.policy.ownsPointer = false →
      ((Parameter.copy hc hl p).2.2).constraint_.ptr = p.constraint_.ptr ∧
      (Parameter.copy hc hl p).1 = hc) ∧
    ((Parameter.copy hc hl p).2.2).listeners_.length = p.listeners_.length ∧
    (∀ (i : Nat) (cup outi : CopyUniquePtr L), p.listeners_[i]? = some cup →
      (((Parameter.copy hc hl p).2.2).listeners_)[i]? = some outi →
      outi.policy = cup.policy ∧
      (cup.policy.ownsPointer = false → outi = cup) ∧
      (∀ a x, cup.policy.ownsPointer = true → cup.ptr = some a →
        hl.read a = some x →
        ∃ a2, outi.ptr = some a2 ∧ a2 ≠ a ∧ hl.read a2 = none ∧
          ((Parameter.copy hc hl p).2.1).read a2 = some x ∧
          ((Parameter.copy hc hl p).2.1).read a = some x)) := by
  refine ⟨?_, ?_, ?_, ?_⟩
  · intro a c hown hpa hr
    have halt : a < hc.cells.length := Heap.read_some_lt hr
    have hne : hc.cells.length ≠ a := fun e => absurd (e ▸ halt) (Nat.lt_irrefl _)
    have hcopy := CopyUniquePtr.copy_owned_of_read hown hpa hr
    have e1 : (Parameter.copy hc hl p).1 =
        (CopyUniquePtr.copy hc p.constraint_).1 := rfl
    have e2 : ((Parameter.copy hc hl p).2.2).constraint_ =
        (CopyUniquePtr.copy hc p.constraint_).2 := rfl
    rw [e1, e2, hcopy]
    refine ⟨rfl, hne, ?_, ?_, rfl, ?_⟩
    · simp [Heap.read, List.getElem?_concat_length]
    · show Heap.read _ a = some c
      simp only [Heap.read, List.getElem?_append_left halt]
      exact hr
    · intro c2
      rw [Heap.read_write_ne _ _ hne]
      simp [Heap.read, List.getElem?_concat_length]
  · intro hsh
    have hcs : CopyUniquePtr.copy hc p.constraint_ = (hc, p.constraint_) :=
      CopyUniquePtr.copy_shared hsh hc
    constructor
    · show (CopyUniquePtr.copy hc p.constraint_).2.ptr = p.constraint_.ptr
      rw [hcs]
    · show (CopyUniquePtr.copy hc p.constraint_).1 = hc
      rw [hcs]
  · exact Parameter.copyListeners_length hl p.listeners_
  · intro i cup outi hcup houti
    have e3 : ((Parameter.copy hc hl p).2.2).listeners_ =
        (Parameter.copyListeners hl p.listeners_).2 := rfl
    have e4 : (Parameter.copy hc hl p).2.1 =
        (Parameter.copyListeners hl p.listeners_).1 := rfl
    rw [e3] at houti
    rw [e4]
    exact Parameter.copyListeners_get hl p.listeners_ i cup outi hcup houti

/-- Witness for C1: copying `exParam` (owned constraint at address 0, heap of
one constraint cell) clones the constraint to fresh address 1, leaves the
original in place, makes exactly one `clone()` call, and copies all three
listeners. -/
theorem parameter_copy_ownership_witness :
    Ex.exParam.constraint_.policy.ownsPointer = true ∧
    Ex.exParam.constraint_.ptr = some 0 ∧
    Ex.exCHeap.read 0 = some 0 ∧
    ((Parameter.copy Ex.exCHeap Ex.exLHeap Ex.exParam).2.2).constraint_.ptr =
      some 1 ∧
    ((Parameter.copy Ex.exCHeap Ex.exLHeap Ex.exParam).1).read 1 = some 0 ∧
    ((Parameter.copy Ex.exCHeap Ex.exLHeap Ex.exParam).1).read 0 = some 0 ∧
    ((Parameter.copy Ex.exCHeap Ex.exLHeap Ex.exParam).1).cloneCalls =
      Ex.exCHeap.cloneCalls + 1 ∧
    ((Parameter.copy Ex.exCHeap Ex.exLHeap Ex.exParam).2.2).listeners_.length =
      3 := by
  obtain ⟨h1, h2, h3, h4⟩ :=
    parameter_copy_ownership Ex.exCHeap Ex.exLHeap Ex.exParam
  have hcc := h1 0 0 rfl rfl rfl
  exact ⟨rfl, rfl, rfl, hcc.1, hcc.2.2.1, hcc.2.2.2.1, hcc.2.2.2.2.1, h3⟩

/-! ## `setValue` lemmas -/

theorem fireParameterValueChanged_trace (handle : L → ParameterEvent V C L → L)
    (event : ParameterEvent V C L) (hl : Heap L)
    (ls : List (CopyUniquePtr L)) :
    (Parameter.fireParameterValueChanged handle event hl ls).2 =
      ls.map (fun cup => (cup.ptr, event)) := by
  induction ls generalizing hl with
  | nil => rfl
  | cons cup rest ih => simp [Parameter.fireParameterValueChanged, ih]

/-! ## Claim C2 -/

/-- Claim C2: for a `Parameter` with an attached constraint `c`, `setValue v`
succeeds if and only if the constraint validates `v`; when it rejects,
setValue surfaces a `ConstraintViolation` carrying the rejected value and the
parameter name synchronously to the caller, and the parameter's observable
state is exactly as before the call (value unchanged, no notification fired,
listener heap untouched — strong exception safety). -/
theorem setValue_validates_strong (validate : C → V → Bool)
    (handle : L → ParameterEvent V C L → L) (hc : Heap C) (hl : Heap L)
    (p : Parameter V C L) (v : V) (a : Nat) (c : C)
    (hpa : p.constraint_.ptr = some a) (hr : hc.read a = some c) :
    ((Parameter.setValue validate handle hc hl p v).err = none ↔
      validate c v = true) ∧
    (validate c v = false →
      Parameter.setValue validate handle hc hl p v =
        { param := p, lheap := hl, trace := [],
          err := some { badValue := v, parameterName := p.name_ } }) ∧
    (validate c v = false →
      ((Parameter.setValue validate handle hc hl p v).param).getValue =
        p.getValue) := by
  have hb : p.constraint_.ptr.bind hc.read = some c := by
    rw [hpa, Option.some_bind, hr]
  cases hv : validate c v with
  | true =>
    simp [Parameter.setValue, hb, hv]
  | false =>
    simp [Parameter.setValue, hb, hv]

/-- Witness for C2: on the concrete parameter (constraint: strictly greater
than the bound 0 stored at address 0), `setValue (-1)` is rejected and leaves
everything unchanged. -/
theorem setValue_validates_strong_witness :
    Ex.exParam.constraint_.ptr = some 0 ∧
    Ex.exCHeap.read 0 = some 0 ∧
    Ex.exValidate 0 (-1) = false ∧
    Parameter.setValue Ex.exValidate Ex.exHandle Ex.exCHeap Ex.exLHeap
        Ex.exParam (-1) =
      { param := Ex.exParam, lheap := Ex.exLHeap, trace := [],
        err := some { badValue := -1, parameterName := "x" } } := by
  obtain ⟨h1, h2, h3⟩ := setValue_validates_strong Ex.exValidate Ex.exHandle
    Ex.exCHeap Ex.exLHeap Ex.exParam (-1) 0 0 rfl rfl
  exact ⟨rfl, rfl, by decide, h2 (by decide)⟩

/-! ## Claim C6 -/

/-- Claim C6: a successful `setValue` call fires exactly one value-changed
notification per registered listener, in registration order (the trace is the
listener list mapped to its pointers), and every notification carries the
same event, whose parameter reference shows the just-set value through
`getValue`. -/
theorem setValue_fires_all_in_order (validate : C → V → Bool)
    (handle : L → ParameterEvent V C L → L) (hc : Heap C) (hl : Heap L)
    (p : Parameter V C L) (v : V)
    (hsucc : (Parameter.setValue validate handle hc hl p v).err = none) :
    ((Parameter.setValue validate handle hc hl p v).param).getValue = v ∧
    (Parameter.setValue validate handle hc hl p v).trace =
      p.listeners_.map (fun cup =>
        (cup.ptr,
         ParameterEvent.mk
           ((Parameter.setValue validate handle hc hl p v).param))) ∧
    (Parameter.setValue validate handle hc hl p v).trace.length =
      p.listeners_.length ∧
    ∀ e ∈ (Parameter.setValue validate handle hc hl p v).trace,
      e.2.getParameter = (Parameter.setValue validate handle hc hl p v).param ∧
      (e.2.getParameter).getValue = v := by
  cases hacc : (match p.constraint_.ptr.bind hc.read with
      | some c => validate c v
      | none => true) with
  | false =>
    rw [Parameter.setValue, hacc] at hsucc
    simp at hsucc
  | true =>
    have hs : Parameter.setValue validate handle hc hl p v =
        { param := { p with value_ := v },
          lheap := (Parameter.fireParameterValueChanged handle
            (ParameterEvent.mk { p with value_ := v }) hl p.listeners_).1,
          trace := (Parameter.fireParameterValueChanged handle
            (ParameterEvent.mk { p with value_ := v }) hl p.listeners_).2,
          err := none } := by
      rw [Parameter.setValue, hacc]
      simp
    rw [hs]
    refine ⟨rfl, ?_, ?_, ?_⟩
    · exact fireParameterValueChanged_trace handle _ hl p.listeners_
    · rw [fireParameterValueChanged_trace handle _ hl p.listeners_]
      simp
    · intro e he
      rw [fireParameterValueChanged_trace handle _ hl p.listeners_] at he
      simp only [List.mem_map] at he
      obtain ⟨cup, _, hce⟩ := he
      rw [← hce]
      exact ⟨rfl, rfl⟩

/-- Witness for C6: on the concrete parameter with three listeners,
`setValue 5` succeeds, fires three notifications in registration order, and
each event shows the new value 5. -/
theorem setValue_fires_all_in_order_witness :
    (Parameter.setValue Ex.exValidate Ex.exHandle Ex.exCHeap Ex.exLHeap
      Ex.exParam 5).err = none ∧
    ((Parameter.setValue Ex.exValidate Ex.exHandle Ex.exCHeap Ex.exLHeap
      Ex.exParam 5).param).getValue = 5 ∧
    (Parameter.setValue Ex.exValidate Ex.exHandle Ex.exCHeap Ex.exLHeap
      Ex.exParam 5).trace.length = 3 := by
  have h := setValue_fires_all_in_order Ex.exValidate Ex.exHandle Ex.exCHeap
    Ex.exLHeap Ex.exParam 5 (by decide)
  refine ⟨by decide, h.1, ?_⟩
  rw [h.2.2.1]
  rfl

/-! ## Claim C7 -/

theorem foldl_destruct_read_preserved (rs : List (CopyUniquePtr L))
    (h : Heap L) (b : Nat) (hb : ∀ cup ∈ rs, cup.ptr ≠ some b) :
    (rs.foldl (fun h2 cup => CopyUniquePtr.destruct h2 cup) h).read b =
      h.read b := by
  induction rs generalizing h with
  | nil => rfl
  | cons cup rest ih =>
    rw [List.foldl_cons]
    rw [ih _ (fun c hcm => hb c (List.mem_cons_of_mem _ hcm))]
    unfold CopyUniquePtr.destruct ConditionalOwnershipPolicy.destroy
    cases hcp : cup.ptr with
    | none =>
      cases cup.policy.ownsPointer <;> simp [DefaultPtrPolicy.deleteOp]
    | some a =>
      have hba : b ≠ a := by
        intro e
        exact hb cup (List.mem_cons_self _ _) (by rw [hcp, e])
      cases cup.policy.ownsPointer <;>
        simp [DefaultPtrPolicy.deleteOp, Heap.read_free_ne _ hba]

/-- Claim C7: `removeParameterListener id` removes every listener whose id
equals `id` (ids need not be unique) and leaves all other listeners untouched
in their order (the remaining list is exactly the filtered original, and each
remaining listener's id reads back unchanged through the updated heap);
afterwards `hasParameterListener id` is false. -/
theorem removeParameterListener_removes_matching (getId : L → String)
    (hl : Heap L) (p : Parameter V C L) (id : String)
    (hvalid : ∀ cup ∈ p.listeners_,
      ∃ a l, cup.ptr = some a ∧ hl.read a = some l) :
    ((Parameter.removeParameterListener getId hl p id).2).listeners_ =
      p.listeners_.filter
        (fun cup => ¬(Parameter.listenerId getId hl cup = some id)) ∧
    (∀ cup ∈ ((Parameter.removeParameterListener getId hl p id).2).listeners_,
      Parameter.listenerId getId
          ((Parameter.removeParameterListener getId hl p id).1) cup =
        Parameter.listenerId getId hl cup) ∧
    Parameter.hasParameterListener getId
      ((Parameter.removeParameterListener getId hl p id).1)
      ((Parameter.removeParameterListener getId hl p id).2) id = false := by
  have e1 : (Parameter.removeParameterListener getId hl p id).1 =
      (p.listeners_.filter
        (fun cup => Parameter.listenerId getId hl cup = some id)).foldl
          (fun h2 cup => CopyUniquePtr.destruct h2 cup) hl := rfl
  have e2 : ((Parameter.removeParameterListener getId hl p id).2).listeners_ =
      p.listeners_.filter
        (fun cup => ¬(Parameter.listenerId getId hl cup = some id)) := rfl
  have hkeep : ∀ cup ∈
      ((Parameter.removeParameterListener getId hl p id).2).listeners_,
      Parameter.listenerId getId
          ((Parameter.removeParameterListener getId hl p id).1) cup =
        Parameter.listenerId getId hl cup := by
    intro cup hcup
    rw [e2, List.mem_filter] at hcup
    obtain ⟨hmem, hnm⟩ := hcup
    have hnm2 : Parameter.listenerId getId hl cup ≠ some id := by
      simpa using hnm
    obtain ⟨b, l, hpb, hrb⟩ := hvalid cup hmem
    have hlid : Parameter.listenerId getId hl cup = some (getId l) := by
      rw [Parameter.listenerId, hpb, Option.some_bind, hrb]
      rfl
    have hidl : getId l ≠ id := by
      intro e
      exact hnm2 (by rw [hlid, e])
    have hav : ∀ rcup ∈ p.listeners_.filter
        (fun cup => Parameter.listenerId getId hl cup = some id),
        rcup.ptr ≠ some b := by
      intro rcup hrc e
      rw [List.mem_filter] at hrc
      have hrm2 : Parameter.listenerId getId hl rcup = some id := by
        simpa using hrc.2
      rw [Parameter.listenerId, e, Option.some_bind, hrb] at hrm2
      exact hidl (by simpa using hrm2)
    rw [e1, Parameter.listenerId, Parameter.listenerId, hpb]
    simp only [Option.some_bind]
    rw [foldl_destruct_read_preserved _ hl b hav]
  refine ⟨e2, hkeep, ?_⟩
  rw [Parameter.hasParameterListener, List.any_eq_false]
  intro cup hcup
  have hpres := hkeep cup hcup
  rw [e2, List.mem_filter] at hcup
  have hnm2 : Parameter.listenerId getId hl cup ≠ some id := by
    simpa using hcup.2
  simp [hpres, hnm2]

/-- Witness for C7: removing id "A" from the concrete parameter (listeners
"A" at 0 owned, "B" at 1 shared, "A" at 2 owned) keeps exactly the "B"
listener and `hasParameterListener "A"` becomes false. -/
theorem removeParameterListener_removes_matching_witness :
    (∀ cup ∈ Ex.exParam.listeners_,
      ∃ a l, cup.ptr = some a ∧ Ex.exLHeap.read a = some l) ∧
    ((Parameter.removeParameterListener Ex.exGetId Ex.exLHeap Ex.exParam
        "A").2).listeners_ =
      [{ ptr := some 1, policy := { ownsPointer := false } }] ∧
    Parameter.hasParameterListener Ex.exGetId
      ((Parameter.removeParameterListener Ex.exGetId Ex.exLHeap Ex.exParam
        "A").1)
      ((Parameter.removeParameterListener Ex.exGetId Ex.exLHeap Ex.exParam
        "A").2) "A" = false := by
  have hvalid : ∀ cup ∈ Ex.exParam.listeners_,
      ∃ a l, cup.ptr = some a ∧ Ex.exLHeap.read a = some l := by
    intro cup hcup
    simp only [Ex.exParam, List.mem_cons] at hcup
    rcases hcup with h | h | h | h
    · exact ⟨0, "A", by rw [h], rfl⟩
    · exact ⟨1, "B", by rw [h], rfl⟩
    · exact ⟨2, "A", by rw [h], rfl⟩
    · simp at h
  have h := removeParameterListener_removes_matching Ex.exGetId Ex.exLHeap
    Ex.exParam "A" hvalid
  refine ⟨hvalid, ?_, h.2.2⟩
  rw [h.1]
  rfl

/-! ## Claim C8 -/

/-- Claim C8: with the exponential distribution registered as the single
listener on its lambda parameter, a successful `setValue` triggers exactly
one recompute (`fireParameterChanged`): the notification trace has length
one, and afterwards the distribution's cached `lambda_` equals the just-set
value, its discretization is re-derived from that value, and its recompute
counter has advanced by exactly one. -/
theorem exponential_setValue_recomputes_once (discretize : V → D)
    (validate : C → V → Bool) (hc : Heap C)
    (hl : Heap (ExponentialDiscreteDistribution V D))
    (p : Parameter V C (ExponentialDiscreteDistribution V D)) (v : V)
    (a : Nat) (d : ExponentialDiscreteDistribution V D)
    (pol : ConditionalOwnershipPolicy)
    (hls : p.listeners_ = [{ ptr := some a, policy := pol }])
    (hread : hl.read a = some d)
    (hsucc : (Parameter.setValue validate
        (ExponentialDiscreteDistribution.fireParameterChanged discretize)
        hc hl p v).err = none) :
    (Parameter.setValue validate
        (ExponentialDiscreteDistribution.fireParameterChanged discretize)
        hc hl p v).trace.length = 1 ∧
    ((Parameter.setValue validate
        (ExponentialDiscreteDistribution.fireParameterChanged discretize)
        hc hl p v).lheap).read a =
      some { lambda_ := v, discretization := discretize v,
             fireCount := d.fireCount + 1 } := by
  have halt : a < hl.cells.length := Heap.read_some_lt hread
  cases hacc : (match p.constraint_.ptr.bind hc.read with
      | some c => validate c v
      | none => true) with
  | false =>
    rw [Parameter.setValue, hacc] at hsucc
    simp at hsucc
  | true =>
    have hs : Parameter.setValue validate
        (ExponentialDiscreteDistribution.fireParameterChanged discretize)
        hc hl p v =
        { param := { p with value_ := v },
          lheap := (Parameter.fireParameterValueChanged
            (ExponentialDiscreteDistribution.fireParameterChanged discretize)
            (ParameterEvent.mk { p with value_ := v }) hl p.listeners_).1,
          trace := (Parameter.fireParameterValueChanged
            (ExponentialDiscreteDistribution.fireParameterChanged discretize)
            (ParameterEvent.mk { p with value_ := v }) hl p.listeners_).2,
          err := none } := by
      rw [Parameter.setValue, hacc]
      simp
    rw [hs, hls]
    constructor
    · rw [fireParameterValueChanged_trace]
      rfl
    · show (Parameter.fireParameterValueChanged _ _ hl
        [{ ptr := some a, policy := pol }]).1.read a = _
      simp only [Parameter.fireParameterValueChanged, hread]
      rw [Heap.read_write_self hl _ halt]
      rfl

/-- Witness for C8: on the concrete lambda parameter with the distribution
(cached lambda 1, recompute count 0) at address 0, `setValue 2` succeeds,
fires one notification, and the distribution afterwards caches lambda 2,
discretization `2 * 2` and recompute count 1. -/
theorem exponential_setValue_recomputes_once_witness :
    Ex.exLambdaParam.listeners_ =
      [{ ptr := some 0, policy := { ownsPointer := false } }] ∧
    Ex.exDistHeap.read 0 =
      some { lambda_ := 1, discretization := 2, fireCount := 0 } ∧
    (Parameter.setValue Ex.exValidate
        (ExponentialDiscreteDistribution.fireParameterChanged Ex.exDiscretize)
        Ex.exCHeap Ex.exDistHeap Ex.exLambdaParam 2).trace.length = 1 ∧
    ((Parameter.setValue Ex.exValidate
        (ExponentialDiscreteDistribution.fireParameterChanged Ex.exDiscretize)
        Ex.exCHeap Ex.exDistHeap Ex.exLambdaParam 2).lheap).read 0 =
      some { lambda_ := 2, discretization := 4, fireCount := 1 } := by
  have h := exponential_setValue_recomputes_once Ex.exDiscretize Ex.exValidate
    Ex.exCHeap Ex.exDistHeap Ex.exLambdaParam 2 0
    { lambda_ := 1, discretization := 2, fireCount := 0 }
    { ownsPointer := false } rfl rfl (by decide)
  exact ⟨rfl, rfl, h.1, h.2⟩

/-! ## Claim C9 -/

/-- Claim C9: the public attach defaults are asymmetric.  Calling
`addParameterListener` without an explicit attach argument appends the
listener with `ownsPointer = true` (so destruction frees a live referent and
value-copying goes through the referent `clone()`), whereas calling
`setConstraint` without an explicit attach argument installs the constraint
with `ownsPointer = false` (so destruction never frees it and value-copying
aliases the very same referent). -/
theorem attach_defaults_asymmetric (hc h2 : Heap C) (hL : Heap L)
    (p : Parameter V C L) (cptr lptr : Option Nat) :
    ((Parameter.setConstraint hc p cptr).2).constraint_.policy.ownsPointer =
      false ∧
    CopyUniquePtr.destruct h2
        ((Parameter.setConstraint hc p cptr).2).constraint_ = h2 ∧
    CopyUniquePtr.copy h2 ((Parameter.setConstraint hc p cptr).2).constraint_ =
      (h2, ((Parameter.setConstraint hc p cptr).2).constraint_) ∧
    (Parameter.addParameterListener p lptr).listeners_ =
      p.listeners_ ++ [{ ptr := lptr, policy := { ownsPointer := true } }] ∧
    (∀ (a : Nat) (x : L), lptr = some a → hL.read a = some x →
      (CopyUniquePtr.destruct hL
        { ptr := lptr, policy := { ownsPointer := true } }).read a = none ∧
      ((CopyUniquePtr.copy hL
        { ptr := lptr, policy := { ownsPointer := true } }).1).cloneCalls =
        hL.cloneCalls + 1) := by
  refine ⟨rfl, ?_, ?_, rfl, ?_⟩
  · exact ConditionalOwnershipPolicy.destroy_shared rfl h2 cptr
  · exact CopyUniquePtr.copy_shared rfl h2
  · intro a x hpa hr
    constructor
    · show (ConditionalOwnershipPolicy.destroy _ hL lptr).read a = none
      rw [hpa, ConditionalOwnershipPolicy.destroy_owned rfl]
      exact Heap.read_free_self hL a
    · rw [CopyUniquePtr.copy_owned_of_read rfl hpa hr]

/-- Witness for C9: with a concrete live listener "A" at address 0, the
default-attached listener entry is owned (freed on destruction, referent
cloned on copy) while the default-set constraint entry is shared. -/
theorem attach_defaults_asymmetric_witness :
    ((Parameter.setConstraint Ex.exCHeap Ex.exParamShared
      (some 0)).2).constraint_.policy.ownsPointer = false ∧
    (Parameter.addParameterListener Ex.exParamShared (some 0)).listeners_ =
      [{ ptr := some 0, policy := { ownsPointer := true } }] ∧
    (some (0 : Nat) = some 0) ∧
    Ex.exLHeap.read 0 = some "A" ∧
    (CopyUniquePtr.destruct Ex.exLHeap
      { ptr := some 0, policy := { ownsPointer := true } }).read 0 = none ∧
    ((CopyUniquePtr.copy Ex.exLHeap
      { ptr := some 0, policy := { ownsPointer := true } }).1).cloneCalls =
      Ex.exLHeap.cloneCalls + 1 := by
  have h := attach_defaults_asymmetric Ex.exCHeap Ex.exCHeap Ex.exLHeap
    Ex.exParamShared (some 0) (some 0)
  have h5 := h.2.2.2.2 0 "A" rfl rfl
  exact ⟨h.1, h.2.2.2.1, rfl, rfl, h5.1, h5.2⟩

end BppCore
